import Mathlib

/-!
Verification of the LTC3335 software-correction lookup
(`bms_firmware/libraries/LTC3335/LTC3335_Correction_Tables.cpp`).

The source provides a compile-time-selected constant array of 38 signed
16-bit correction factors, indexed by battery voltage, and one function
`LTC3335_Get_Software_Correction_Factor(uint16_t vbat)` that clamps the
voltage to [1800 mV, 5500 mV] and linearly interpolates between adjacent
table entries.  We embed the constants, the index macro, the table data for
the configurations the specification exercises, and the function itself,
and prove the specification's claims about them.
-/

/-- `#define LTC3335_VBAT_MIN 1800` (source line 116): battery voltage in mV
corresponding to the first table index. -/
def LTC3335_VBAT_MIN : Nat := 1800

/-- `#define LTC3335_VBAT_STEP 100` (source line 117): voltage step between
table indices. -/
def LTC3335_VBAT_STEP : Nat := 100

/-- `#define LTC3335_VBAT_NUM 38` (source line 118): number of entries. -/
def LTC3335_VBAT_NUM : Nat := 38

/-- `#define LTC3335_VBAT_MAX (LTC3335_VBAT_MIN + LTC3335_VBAT_STEP *
(LTC3335_VBAT_NUM - 1))` (source line 119); evaluates to 5500. -/
def LTC3335_VBAT_MAX : Nat := LTC3335_VBAT_MIN + LTC3335_VBAT_STEP * (LTC3335_VBAT_NUM - 1)

/-- `#define LTC3335_VBAT_TO_TABLE_INDEX(vbat) ((uint8_t)((vbat -
LTC3335_VBAT_MIN) / LTC3335_VBAT_STEP))` (source line 120).  The `% 256`
models the `uint8_t` cast.  Every call site in the source supplies
`vbat ≥ LTC3335_VBAT_MIN`, where C unsigned subtraction agrees with
truncated `Nat` subtraction. -/
def LTC3335_VBAT_TO_TABLE_INDEX (vbat : Nat) : Nat :=
  ((vbat - LTC3335_VBAT_MIN) / LTC3335_VBAT_STEP) % 256

/-- The compiled-in correction table for `LTC3335_IPEAK_CONFIGURATION_10MA`
and `LTC3335_OUTPUT_VOLTAGE_3_3V` (source line 173), the example
configuration used throughout the specification. -/
def LTC3335_Software_Correction_Table_10MA_3_3V : List Int :=
  [3312, 3533, 3741, 3937, 4126, 4308, 4486, 4662, 4837, 5013, 5191, 5371,
   5555, 5742, 5934, 6131, 6332, 6538, 6748, 6964, 7183, 7407, 7634, 7866,
   8101, 8339, 8581, 8826, 9074, 9325, 9580, 9839, 10103, 10372, 10646,
   10928, 11219, 11519]

/-- The compiled-in correction table for `LTC3335_IPEAK_CONFIGURATION_100MA`
and `LTC3335_OUTPUT_VOLTAGE_1_8V` (source line 265), a high-IPEAK
configuration whose table contains decreasing segments. -/
def LTC3335_Software_Correction_Table_100MA_1_8V : List Int :=
  [549, 287, 77, -88, -212, -302, -363, -399, -414, -411, -393, -362, -322,
   -274, -218, -157, -92, -23, 50, 125, 204, 285, 369, 455, 545, 638, 735,
   834, 937, 1044, 1153, 1266, 1380, 1496, 1612, 1727, 1839, 1948]

/-- `LTC3335_Get_Software_Correction_Factor` (source lines 354-371), with
the table passed explicitly since the C array is selected at compile time.
Array reads are modelled with `List.getD` (default 0; the index bound
claims show the default is never consulted inside the table range).
Arithmetic is carried out in `Int`, which agrees with the C `int32_t`
arithmetic because no intermediate overflows; the machine-level variant
below makes the overflow argument explicit.  `Int.tdiv` is C's
truncate-toward-zero division. -/
def LTC3335_Get_Software_Correction_Factor (table : List Int) (vbat : Nat) : Int :=
  if vbat ≤ LTC3335_VBAT_MIN then
    table.getD (LTC3335_VBAT_TO_TABLE_INDEX LTC3335_VBAT_MIN) 0
  else if LTC3335_VBAT_MAX ≤ vbat then
    table.getD (LTC3335_VBAT_TO_TABLE_INDEX LTC3335_VBAT_MAX) 0
  else
    table.getD (LTC3335_VBAT_TO_TABLE_INDEX vbat) 0 +
      Int.tdiv
        ((table.getD (LTC3335_VBAT_TO_TABLE_INDEX vbat + 1) 0 -
            table.getD (LTC3335_VBAT_TO_TABLE_INDEX vbat) 0) *
          ((vbat : Int) -
            ((LTC3335_VBAT_MIN : Int) +
              (LTC3335_VBAT_TO_TABLE_INDEX vbat : Int) * (LTC3335_VBAT_STEP : Int))) +
          (LTC3335_VBAT_STEP : Int) / 2)
        (LTC3335_VBAT_STEP : Int)

/-- Two's-complement wrap of a 32-bit signed intermediate. -/
def int32_wrap (x : Int) : Int := (x + 2 ^ 31) % 2 ^ 32 - 2 ^ 31

/-- Two's-complement wrap of a 16-bit signed value. -/
def int16_wrap (x : Int) : Int := (x + 2 ^ 15) % 2 ^ 16 - 2 ^ 15

/-- Machine-level model of `LTC3335_Get_Software_Correction_Factor` (source
lines 354-371) on a platform with 32-bit `int`: `factor2 - factor1` and the
cast product `(int32_t)(factor2 - factor1) * (vbat - ...) + 50` are reduced
modulo 2^32 as two's-complement `int32_t`, and the returned sum is reduced
modulo 2^16 for the `int16_t` return type.  The clamp branches return table
entries directly (already `int16_t` data). -/
def LTC3335_Get_Software_Correction_Factor_Int32 (table : List Int) (vbat : Nat) : Int :=
  if vbat ≤ LTC3335_VBAT_MIN then
    table.getD (LTC3335_VBAT_TO_TABLE_INDEX LTC3335_VBAT_MIN) 0
  else if LTC3335_VBAT_MAX ≤ vbat then
    table.getD (LTC3335_VBAT_TO_TABLE_INDEX LTC3335_VBAT_MAX) 0
  else
    int16_wrap
      (int32_wrap
        (table.getD (LTC3335_VBAT_TO_TABLE_INDEX vbat) 0 +
          Int.tdiv
            (int32_wrap
              (int32_wrap
                (int32_wrap
                  (table.getD (LTC3335_VBAT_TO_TABLE_INDEX vbat + 1) 0 -
                    table.getD (LTC3335_VBAT_TO_TABLE_INDEX vbat) 0) *
                  ((vbat : Int) -
                    ((LTC3335_VBAT_MIN : Int) +
                      (LTC3335_VBAT_TO_TABLE_INDEX vbat : Int) * (LTC3335_VBAT_STEP : Int)))) +
                (LTC3335_VBAT_STEP : Int) / 2))
            (LTC3335_VBAT_STEP : Int)))

/-- The rounding subexpression of source line 369: the interpolation adds
`LTC3335_VBAT_STEP/2` to the numerator before the truncating division by
`LTC3335_VBAT_STEP`. -/
def LTC3335_Interpolation_Rounding (numerator : Int) : Int :=
  Int.tdiv (numerator + (LTC3335_VBAT_STEP : Int) / 2) (LTC3335_VBAT_STEP : Int)

/-- A call of the C function with the table held in (read-only) program
memory threaded through as explicit state: the call returns the computed
factor together with the memory it leaves behind.  The source reads the
table via `pgm_read_word` and writes nothing. -/
def LTC3335_Call (table : List Int) (vbat : Nat) : Int × List Int :=
  (LTC3335_Get_Software_Correction_Factor table vbat, table)

/-- A call of the C function with an arbitrary integer argument: C argument
conversion reduces the value modulo 2^16 to fit the `uint16_t` parameter. -/
def LTC3335_Call_With_Int_Argument (table : List Int) (z : Int) : Int :=
  LTC3335_Get_Software_Correction_Factor table (z % 2 ^ 16).toNat

/-! ### Helper lemmas -/

/-- Truncating division of a negative numerator by 100, expressed through
Euclidean division of its negation. -/
lemma tdiv_hundred_of_neg (a : Int) (h : a < 0) : Int.tdiv a 100 = -(-a / 100) := by
  conv_lhs => rw [← Int.neg_neg a]
  rw [Int.neg_tdiv, Int.tdiv_eq_ediv (by omega) (by norm_num)]

/-- Truncating division of a nonnegative numerator by 100 is Euclidean
division. -/
lemma tdiv_hundred_of_nonneg (a : Int) (h : 0 ≤ a) : Int.tdiv a 100 = a / 100 :=
  Int.tdiv_eq_ediv h (by norm_num)

/-- The interpolation increment for a nonnegative slope stays between 0 and
the slope. -/
lemma interp_bounds_nonneg (d r : Int) (hd : 0 ≤ d) (hr0 : 0 ≤ r) (hr : r ≤ 99) :
    0 ≤ Int.tdiv (d * r + 50) 100 ∧ Int.tdiv (d * r + 50) 100 ≤ d := by
  have h1 : 0 ≤ d * r := mul_nonneg hd hr0
  have h2 : d * r ≤ d * 99 := mul_le_mul_of_nonneg_left hr hd
  rw [tdiv_hundred_of_nonneg _ (by omega)]
  omega

/-- The interpolation increment for a nonpositive slope stays between the
slope and 0. -/
lemma interp_bounds_nonpos (d r : Int) (hd : d ≤ 0) (hr0 : 0 ≤ r) (hr : r ≤ 99) :
    d ≤ Int.tdiv (d * r + 50) 100 ∧ Int.tdiv (d * r + 50) 100 ≤ 0 := by
  have h1 : d * r ≤ 0 := mul_nonpos_of_nonpos_of_nonneg hd hr0
  have h2 : d * 99 ≤ d * r := mul_le_mul_of_nonpos_left hr hd
  rcases le_or_lt 0 (d * r + 50) with hpos | hneg
  · rw [tdiv_hundred_of_nonneg _ hpos]
    omega
  · rw [tdiv_hundred_of_neg _ hneg]
    omega

/-- Below `VBAT_MIN` the function returns the entry at index 0. -/
lemma correction_factor_low (table : List Int) (vbat : Nat) (h : vbat ≤ 1800) :
    LTC3335_Get_Software_Correction_Factor table vbat = table.getD 0 0 := by
  have hidx : LTC3335_VBAT_TO_TABLE_INDEX LTC3335_VBAT_MIN = 0 := rfl
  unfold LTC3335_Get_Software_Correction_Factor
  rw [if_pos (by simp only [LTC3335_VBAT_MIN]; omega), hidx]

/-- At or above `VBAT_MAX` the function returns the entry at index 37. -/
lemma correction_factor_high (table : List Int) (vbat : Nat) (h : 5500 ≤ vbat) :
    LTC3335_Get_Software_Correction_Factor table vbat = table.getD 37 0 := by
  have hidx : LTC3335_VBAT_TO_TABLE_INDEX LTC3335_VBAT_MAX = 37 := rfl
  unfold LTC3335_Get_Software_Correction_Factor
  rw [if_neg (by simp only [LTC3335_VBAT_MIN]; omega),
    if_pos (by simp only [LTC3335_VBAT_MAX, LTC3335_VBAT_MIN, LTC3335_VBAT_STEP,
      LTC3335_VBAT_NUM]; omega), hidx]

/-- Inside the table range the index macro computes `(vbat - 1800) / 100`:
the `uint8_t` cast does not truncate. -/
lemma table_index_eq (vbat : Nat) (h : vbat ≤ 5500) :
    LTC3335_VBAT_TO_TABLE_INDEX vbat = (vbat - 1800) / 100 := by
  simp only [LTC3335_VBAT_TO_TABLE_INDEX, LTC3335_VBAT_MIN, LTC3335_VBAT_STEP]
  omega

/-- Normal form of the interpolating branch, with the remainder expressed
as `(vbat - 1800) % 100`. -/
lemma correction_factor_interp (table : List Int) (vbat : Nat)
    (h1 : 1800 < vbat) (h2 : vbat < 5500) :
    LTC3335_Get_Software_Correction_Factor table vbat =
      table.getD ((vbat - 1800) / 100) 0 +
        Int.tdiv
          ((table.getD ((vbat - 1800) / 100 + 1) 0 - table.getD ((vbat - 1800) / 100) 0) *
            (((vbat - 1800) % 100 : Nat) : Int) + 50)
          100 := by
  unfold LTC3335_Get_Software_Correction_Factor
  rw [if_neg (by simp only [LTC3335_VBAT_MIN]; omega),
    if_neg (by simp only [LTC3335_VBAT_MAX, LTC3335_VBAT_MIN, LTC3335_VBAT_STEP,
      LTC3335_VBAT_NUM]; omega),
    table_index_eq vbat (by omega)]
  have hrem : (vbat : Int) -
      ((LTC3335_VBAT_MIN : Int) + (((vbat - 1800) / 100 : Nat) : Int) * (LTC3335_VBAT_STEP : Int)) =
      (((vbat - 1800) % 100 : Nat) : Int) := by
    simp only [LTC3335_VBAT_MIN, LTC3335_VBAT_STEP]
    omega
  rw [hrem]
  norm_num [LTC3335_VBAT_STEP]

/-- A table whose members all lie in the `int16_t` range yields reads in
that range (the out-of-range default 0 is also in range). -/
lemma getD_int16_bounds (table : List Int)
    (hb : ∀ x ∈ table, -32768 ≤ x ∧ x ≤ 32767) (i : Nat) :
    -32768 ≤ table.getD i 0 ∧ table.getD i 0 ≤ 32767 := by
  rcases lt_or_ge i table.length with hi | hi
  · rw [List.getD_eq_getElem table 0 hi]
    exact hb _ (table.getElem_mem hi)
  · rw [List.getD_eq_default table 0 hi]
    norm_num

/-- The rounding subexpression written with its constants evaluated:
`STEP/2 = 50` and `STEP = 100`. -/
lemma interpolation_rounding_def (n : Int) :
    LTC3335_Interpolation_Rounding n = Int.tdiv (n + 50) 100 := by
  norm_num [LTC3335_Interpolation_Rounding, LTC3335_VBAT_STEP]

/-! ### Claim theorems -/

/-- Claim C2: for every input at or below `VBAT_MIN` (1800) the function
returns the table entry at index 0 unchanged, and for every input at or
above `VBAT_MAX` (5500) it returns the table entry at index 37 unchanged;
no extrapolation is performed outside the table range. -/
theorem correction_factor_clamps (table : List Int) (vbat : Nat) :
    (vbat ≤ LTC3335_VBAT_MIN →
        LTC3335_Get_Software_Correction_Factor table vbat = table.getD 0 0) ∧
      (LTC3335_VBAT_MAX ≤ vbat →
        LTC3335_Get_Software_Correction_Factor table vbat = table.getD 37 0) :=
  ⟨correction_factor_low table vbat, correction_factor_high table vbat⟩

/-- Witness for C2 at the specification's own test points: 1700 clamps to
the first entry 3312 and 6000 clamps to the last entry 11519. -/
theorem correction_factor_clamps_witness :
    LTC3335_Get_Software_Correction_Factor LTC3335_Software_Correction_Table_10MA_3_3V 1700 =
        3312 ∧
      LTC3335_Get_Software_Correction_Factor LTC3335_Software_Correction_Table_10MA_3_3V 6000 =
        11519 :=
  ⟨((correction_factor_clamps LTC3335_Software_Correction_Table_10MA_3_3V 1700).1
      (by decide)).trans (by decide),
   ((correction_factor_clamps LTC3335_Software_Correction_Table_10MA_3_3V 6000).2
      (by decide)).trans (by decide)⟩

/-- Claim C3: at every table node `VBAT_MIN + k*STEP` with `0 ≤ k ≤ 37` the
function returns `table[k]` exactly; the interpolation reduces to the
identity at the nodes. -/
theorem correction_factor_at_table_nodes (table : List Int) (k : Nat) (hk : k ≤ 37) :
    LTC3335_Get_Software_Correction_Factor table
        (LTC3335_VBAT_MIN + k * LTC3335_VBAT_STEP) = table.getD k 0 := by
  simp only [LTC3335_VBAT_MIN, LTC3335_VBAT_STEP]
  rcases Nat.eq_zero_or_pos k with hk0 | hk1
  · subst hk0
    simpa using correction_factor_low table 1800 (by omega)
  · rcases eq_or_lt_of_le hk with hk37 | hk37
    · subst hk37
      simpa using correction_factor_high table (1800 + 37 * 100) (by norm_num)
    · rw [correction_factor_interp table _ (by omega) (by omega)]
      have e1 : (1800 + k * 100 - 1800) / 100 = k := by omega
      have e2 : (1800 + k * 100 - 1800) % 100 = 0 := by omega
      rw [e1, e2]
      have h50 : Int.tdiv 50 100 = 0 := by decide
      simp [h50]

/-- Witness for C3 at node `k = 5` (voltage 2300 mV) in the 10 mA / 3.3 V
table. -/
theorem correction_factor_at_table_nodes_witness :
    LTC3335_Get_Software_Correction_Factor LTC3335_Software_Correction_Table_10MA_3_3V
        (LTC3335_VBAT_MIN + 5 * LTC3335_VBAT_STEP) =
      LTC3335_Software_Correction_Table_10MA_3_3V.getD 5 0 :=
  correction_factor_at_table_nodes LTC3335_Software_Correction_Table_10MA_3_3V 5 (by decide)

/-- Claim C4: for every voltage strictly inside `(VBAT_MIN, VBAT_MAX)` (the
interpolating branch) the computed index satisfies `index ≤ VBAT_NUM - 2`,
so both `table[index]` and `table[index+1]` stay inside the 38-entry
array. -/
theorem table_index_in_bounds (vbat : Nat) (h1 : LTC3335_VBAT_MIN < vbat)
    (h2 : vbat < LTC3335_VBAT_MAX) :
    LTC3335_VBAT_TO_TABLE_INDEX vbat ≤ LTC3335_VBAT_NUM - 2 ∧
      LTC3335_VBAT_TO_TABLE_INDEX vbat + 1 < LTC3335_VBAT_NUM := by
  simp only [LTC3335_VBAT_TO_TABLE_INDEX, LTC3335_VBAT_MIN, LTC3335_VBAT_STEP,
    LTC3335_VBAT_NUM, LTC3335_VBAT_MAX] at *
  omega

/-- Witness for C4 at the last interpolating voltage 5499 mV. -/
theorem table_index_in_bounds_witness :
    LTC3335_VBAT_TO_TABLE_INDEX 5499 ≤ LTC3335_VBAT_NUM - 2 ∧
      LTC3335_VBAT_TO_TABLE_INDEX 5499 + 1 < LTC3335_VBAT_NUM :=
  table_index_in_bounds 5499 (by decide) (by decide)

/-- Claim C5: with the 10 mA / 3.3 V table, the function returns 8826 (the
exact entry at index 27) at 4500 mV, and 8950 = 8826 + 124 at the half-step
point 4550 mV, where 124 is the round-half-up of (9074-8826)*50/100. -/
theorem correction_factor_spec_examples :
    LTC3335_Get_Software_Correction_Factor LTC3335_Software_Correction_Table_10MA_3_3V 4500 =
        8826 ∧
      LTC3335_Software_Correction_Table_10MA_3_3V.getD 27 0 = 8826 ∧
      LTC3335_Get_Software_Correction_Factor LTC3335_Software_Correction_Table_10MA_3_3V 4550 =
        8950 ∧
      LTC3335_Interpolation_Rounding ((9074 - 8826) * 50) = 124 ∧
      (8950 : Int) = 8826 + 124 := by
  refine ⟨by decide, by decide, by decide, by decide, by norm_num⟩

/-- Claim C6: decreasing table segments exist in the compiled-in tables for
high IPEAK configurations (here 100 mA / 1.8 V), and at an exact half-step
tie the rounding expression `(numerator + STEP/2) / STEP` sends a positive
numerator `100*m + 50` to `m + 1` (away from zero) but a negative numerator
`-(100*m + 50)` to `-m` (toward positive infinity), so the negative-slope
ties do not mirror the positive-slope behaviour. -/
theorem interpolation_rounding_asymmetry :
    (∃ k, k ≤ 36 ∧
        LTC3335_Software_Correction_Table_100MA_1_8V.getD (k + 1) 0 -
            LTC3335_Software_Correction_Table_100MA_1_8V.getD k 0 < 0) ∧
      (∀ m : Nat, LTC3335_Interpolation_Rounding (100 * m + 50) = m + 1) ∧
      (∀ m : Nat, LTC3335_Interpolation_Rounding (-(100 * m + 50)) = -m) ∧
      (∀ m : Nat, LTC3335_Interpolation_Rounding (-(100 * m + 50)) ≠
        -LTC3335_Interpolation_Rounding (100 * m + 50)) := by
  have hpos : ∀ m : Nat, LTC3335_Interpolation_Rounding (100 * m + 50) = m + 1 := by
    intro m
    rw [interpolation_rounding_def]
    have h : (100 * (m : Int) + 50) + 50 = 100 * ((m : Int) + 1) := by ring
    rw [h, Int.mul_tdiv_cancel_left _ (by norm_num)]
  have hneg : ∀ m : Nat, LTC3335_Interpolation_Rounding (-(100 * m + 50)) = -m := by
    intro m
    rw [interpolation_rounding_def]
    have h : (-(100 * (m : Int) + 50)) + 50 = 100 * (-(m : Int)) := by ring
    rw [h, Int.mul_tdiv_cancel_left _ (by norm_num)]
  refine ⟨⟨0, by norm_num, by decide⟩, hpos, hneg, ?_⟩
  intro m
  rw [hpos m, hneg m]
  omega

/-- Claim C7 (amended): the function is total over its actual input domain,
the `uint16_t` range 0..65535: C argument conversion is the identity there,
a value is returned for every such input with no error conditions, and
inputs outside [1800, 5500] but inside the domain are clamped to the
boundary entries. -/
theorem correction_factor_total_uint16 (table : List Int) (vbat : Nat)
    (h : vbat < 2 ^ 16) :
    LTC3335_Call_With_Int_Argument table (vbat : Int) =
        LTC3335_Get_Software_Correction_Factor table vbat ∧
      (vbat ≤ 1800 →
        LTC3335_Get_Software_Correction_Factor table vbat = table.getD 0 0) ∧
      (5500 ≤ vbat →
        LTC3335_Get_Software_Correction_Factor table vbat = table.getD 37 0) := by
  refine ⟨?_, correction_factor_low table vbat, correction_factor_high table vbat⟩
  unfold LTC3335_Call_With_Int_Argument
  congr 1
  have h16 : (2 : Int) ^ 16 = 65536 := by norm_num
  rw [h16]
  have h16n : (2 : Nat) ^ 16 = 65536 := by norm_num
  rw [h16n] at h
  omega

/-- Witness for C7's amended claim at the in-domain input 6000. -/
theorem correction_factor_total_uint16_witness :
    LTC3335_Get_Software_Correction_Factor LTC3335_Software_Correction_Table_10MA_3_3V 6000 =
      LTC3335_Software_Correction_Table_10MA_3_3V.getD 37 0 :=
  (correction_factor_total_uint16 LTC3335_Software_Correction_Table_10MA_3_3V 6000
    (by norm_num)).2.2 (by norm_num)

/-- Counterexample for C7 as stated: the integer input 70000 lies above
5500, so the claim demands the clamped last entry 11519, but C argument
conversion reduces 70000 mod 2^16 to 4464 and the call returns the
interpolated value 8738, which is neither boundary entry. -/
theorem correction_factor_not_total_over_integers :
    LTC3335_Call_With_Int_Argument LTC3335_Software_Correction_Table_10MA_3_3V 70000 = 8738 ∧
      (5500 : Int) ≤ 70000 ∧
      LTC3335_Software_Correction_Table_10MA_3_3V.getD 37 0 = 11519 ∧
      (8738 : Int) ≠ 11519 ∧
      LTC3335_Software_Correction_Table_10MA_3_3V.getD 0 0 = 3312 ∧
      (8738 : Int) ≠ 3312 :=
  ⟨by decide, by norm_num, by decide, by decide, by decide, by decide⟩

/-- Claim C8: the function is deterministic and side-effect free.  Modelling
a call as a state transformer over the (read-only) table memory, a call
leaves the memory unchanged, a repeated call with the same input returns
the identical value, and the returned value is a function of the table and
the input alone. -/
theorem correction_factor_pure (table : List Int) (vbat : Nat) :
    (LTC3335_Call table vbat).2 = table ∧
      (LTC3335_Call (LTC3335_Call table vbat).2 vbat).1 = (LTC3335_Call table vbat).1 ∧
      (LTC3335_Call table vbat).1 = LTC3335_Get_Software_Correction_Factor table vbat :=
  ⟨rfl, rfl, rfl⟩

/-- Claim C9: the returned value always lies in the closed interval between
the two table entries bracketing the input (exactly a boundary entry for
clamped inputs), and when every table entry fits in `int16_t` the result
fits in `int16_t` as well. -/
theorem correction_factor_bracketed (table : List Int) (vbat : Nat) :
    (vbat ≤ 1800 →
        LTC3335_Get_Software_Correction_Factor table vbat = table.getD 0 0) ∧
      (5500 ≤ vbat →
        LTC3335_Get_Software_Correction_Factor table vbat = table.getD 37 0) ∧
      (1800 < vbat → vbat < 5500 →
        min (table.getD ((vbat - 1800) / 100) 0) (table.getD ((vbat - 1800) / 100 + 1) 0) ≤
            LTC3335_Get_Software_Correction_Factor table vbat ∧
          LTC3335_Get_Software_Correction_Factor table vbat ≤
            max (table.getD ((vbat - 1800) / 100) 0)
              (table.getD ((vbat - 1800) / 100 + 1) 0)) ∧
      ((∀ x ∈ table, -32768 ≤ x ∧ x ≤ 32767) →
        -32768 ≤ LTC3335_Get_Software_Correction_Factor table vbat ∧
          LTC3335_Get_Software_Correction_Factor table vbat ≤ 32767) := by
  have hmid : ∀ (_ : 1800 < vbat) (_ : vbat < 5500),
      min (table.getD ((vbat - 1800) / 100) 0) (table.getD ((vbat - 1800) / 100 + 1) 0) ≤
          LTC3335_Get_Software_Correction_Factor table vbat ∧
        LTC3335_Get_Software_Correction_Factor table vbat ≤
          max (table.getD ((vbat - 1800) / 100) 0)
            (table.getD ((vbat - 1800) / 100 + 1) 0) := by
    intro h1 h2
    rw [correction_factor_interp table vbat h1 h2]
    have hr0 : (0 : Int) ≤ (((vbat - 1800) % 100 : Nat) : Int) := Int.natCast_nonneg _
    have hr99 : (((vbat - 1800) % 100 : Nat) : Int) ≤ 99 := by
      have := Nat.mod_lt (vbat - 1800) (y := 100) (by norm_num)
      omega
    rcases le_total 0
        (table.getD ((vbat - 1800) / 100 + 1) 0 - table.getD ((vbat - 1800) / 100) 0) with
      hd | hd
    · have hb := interp_bounds_nonneg _ _ hd hr0 hr99
      rw [min_eq_left (by omega), max_eq_right (by omega)]
      omega
    · have hb := interp_bounds_nonpos _ _ hd hr0 hr99
      rw [min_eq_right (by omega), max_eq_left (by omega)]
      omega
  refine ⟨correction_factor_low table vbat, correction_factor_high table vbat, hmid, ?_⟩
  intro hb
  rcases le_or_lt vbat 1800 with h | h
  · rw [correction_factor_low table vbat h]
    exact getD_int16_bounds table hb 0
  · rcases le_or_lt 5500 vbat with h5 | h5
    · rw [correction_factor_high table vbat h5]
      exact getD_int16_bounds table hb 37
    · have hm := hmid h h5
      have b1 := getD_int16_bounds table hb ((vbat - 1800) / 100)
      have b2 := getD_int16_bounds table hb ((vbat - 1800) / 100 + 1)
      constructor
      · calc (-32768 : Int) ≤ min (table.getD ((vbat - 1800) / 100) 0)
              (table.getD ((vbat - 1800) / 100 + 1) 0) := le_min b1.1 b2.1
          _ ≤ _ := hm.1
      · calc LTC3335_Get_Software_Correction_Factor table vbat ≤
              max (table.getD ((vbat - 1800) / 100) 0)
                (table.getD ((vbat - 1800) / 100 + 1) 0) := hm.2
          _ ≤ 32767 := max_le b1.2 b2.2

/-- Witness for C9 at 4550 mV with the 10 mA / 3.3 V table. -/
theorem correction_factor_bracketed_witness :
    -32768 ≤ LTC3335_Get_Software_Correction_Factor
        LTC3335_Software_Correction_Table_10MA_3_3V 4550 ∧
      LTC3335_Get_Software_Correction_Factor
        LTC3335_Software_Correction_Table_10MA_3_3V 4550 ≤ 32767 :=
  (correction_factor_bracketed LTC3335_Software_Correction_Table_10MA_3_3V 4550).2.2.2
    (by decide)

/-- Wrapping a value already inside the `int32_t` range is the identity. -/
lemma int32_wrap_eq_self (x : Int) (h1 : -2147483648 ≤ x) (h2 : x < 2147483648) :
    int32_wrap x = x := by
  have e31 : (2 : Int) ^ 31 = 2147483648 := by norm_num
  have e32 : (2 : Int) ^ 32 = 4294967296 := by norm_num
  unfold int32_wrap
  rw [e31, e32]
  omega

/-- Wrapping a value already inside the `int16_t` range is the identity. -/
lemma int16_wrap_eq_self (x : Int) (h1 : -32768 ≤ x) (h2 : x < 32768) :
    int16_wrap x = x := by
  have e15 : (2 : Int) ^ 15 = 32768 := by norm_num
  have e16 : (2 : Int) ^ 16 = 65536 := by norm_num
  unfold int16_wrap
  rw [e15, e16]
  omega

/-- Normal form of the interpolating branch of the machine-level model. -/
lemma correction_factor_int32_interp (table : List Int) (vbat : Nat)
    (h1 : 1800 < vbat) (h2 : vbat < 5500) :
    LTC3335_Get_Software_Correction_Factor_Int32 table vbat =
      int16_wrap (int32_wrap
        (table.getD ((vbat - 1800) / 100) 0 +
          Int.tdiv
            (int32_wrap (int32_wrap
              (int32_wrap (table.getD ((vbat - 1800) / 100 + 1) 0 -
                  table.getD ((vbat - 1800) / 100) 0) *
                (((vbat - 1800) % 100 : Nat) : Int)) + 50))
            100)) := by
  unfold LTC3335_Get_Software_Correction_Factor_Int32
  rw [if_neg (by simp only [LTC3335_VBAT_MIN]; omega),
    if_neg (by simp only [LTC3335_VBAT_MAX, LTC3335_VBAT_MIN, LTC3335_VBAT_STEP,
      LTC3335_VBAT_NUM]; omega),
    table_index_eq vbat (by omega)]
  have hrem : (vbat : Int) -
      ((LTC3335_VBAT_MIN : Int) + (((vbat - 1800) / 100 : Nat) : Int) * (LTC3335_VBAT_STEP : Int)) =
      (((vbat - 1800) % 100 : Nat) : Int) := by
    simp only [LTC3335_VBAT_MIN, LTC3335_VBAT_STEP]
    omega
  rw [hrem]
  norm_num [LTC3335_VBAT_STEP]

/-- Core of the C1 argument over abstract `int16_t` entries `lo`, `hi` and
remainder `R`: every intermediate of the machine computation stays inside
`int32_t`, the final sum stays inside `int16_t`, and the machine value
collapses to the pure interpolation formula. -/
lemma int32_interp_core (lo hi R : Int)
    (hlo1 : -32768 ≤ lo) (hlo2 : lo ≤ 32767) (hhi1 : -32768 ≤ hi) (hhi2 : hi ≤ 32767)
    (hR0 : 0 ≤ R) (hR99 : R ≤ 99) :
    int16_wrap (int32_wrap
        (lo + Int.tdiv (int32_wrap (int32_wrap (int32_wrap (hi - lo) * R) + 50)) 100)) =
        lo + Int.tdiv ((hi - lo) * R + 50) 100 ∧
      -2147483648 ≤ (hi - lo) * R + 50 ∧ (hi - lo) * R + 50 < 2147483648 := by
  have hp1 : (hi - lo) * R ≤ 65535 * R := mul_le_mul_of_nonneg_right (by omega) hR0
  have hp2 : (-65535) * R ≤ (hi - lo) * R := mul_le_mul_of_nonneg_right (by omega) hR0
  have hw1 : int32_wrap (hi - lo) = hi - lo := int32_wrap_eq_self _ (by omega) (by omega)
  rw [hw1]
  have hw2 : int32_wrap ((hi - lo) * R) = (hi - lo) * R :=
    int32_wrap_eq_self _ (by omega) (by omega)
  rw [hw2]
  have hw3 : int32_wrap ((hi - lo) * R + 50) = (hi - lo) * R + 50 :=
    int32_wrap_eq_self _ (by omega) (by omega)
  rw [hw3]
  rcases le_total 0 (hi - lo) with hd | hd
  · have hbnd := interp_bounds_nonneg (hi - lo) R hd hR0 hR99
    have hw4 : int32_wrap (lo + Int.tdiv ((hi - lo) * R + 50) 100) =
        lo + Int.tdiv ((hi - lo) * R + 50) 100 := int32_wrap_eq_self _ (by omega) (by omega)
    have hw5 : int16_wrap (lo + Int.tdiv ((hi - lo) * R + 50) 100) =
        lo + Int.tdiv ((hi - lo) * R + 50) 100 := int16_wrap_eq_self _ (by omega) (by omega)
    rw [hw4, hw5]
    exact ⟨rfl, by omega, by omega⟩
  · have hbnd := interp_bounds_nonpos (hi - lo) R hd hR0 hR99
    have hw4 : int32_wrap (lo + Int.tdiv ((hi - lo) * R + 50) 100) =
        lo + Int.tdiv ((hi - lo) * R + 50) 100 := int32_wrap_eq_self _ (by omega) (by omega)
    have hw5 : int16_wrap (lo + Int.tdiv ((hi - lo) * R + 50) 100) =
        lo + Int.tdiv ((hi - lo) * R + 50) 100 := int16_wrap_eq_self _ (by omega) (by omega)
    rw [hw4, hw5]
    exact ⟨rfl, by omega, by omega⟩

/-- Claim C1: for every input strictly between `VBAT_MIN` and `VBAT_MAX`
and a table of `int16_t` entries, the machine-level computation (explicit
32-bit product, 16-bit return conversion) returns exactly
`lo + ((hi - lo) * (vbat - (1800 + index*100)) + 50) tdiv 100` with
`index = (vbat - 1800) / 100`, `lo = table[index]`, `hi = table[index+1]`;
it agrees with the pure model, and the 32-bit product-plus-bias never
overflows. -/
theorem correction_factor_interpolation_formula (table : List Int) (vbat : Nat)
    (hb : ∀ x ∈ table, -32768 ≤ x ∧ x ≤ 32767)
    (h1 : 1800 < vbat) (h2 : vbat < 5500) :
    LTC3335_Get_Software_Correction_Factor_Int32 table vbat =
        table.getD ((vbat - 1800) / 100) 0 +
          Int.tdiv
            ((table.getD ((vbat - 1800) / 100 + 1) 0 - table.getD ((vbat - 1800) / 100) 0) *
              ((vbat : Int) - (1800 + (((vbat - 1800) / 100 : Nat) : Int) * 100)) + 50)
            100 ∧
      LTC3335_Get_Software_Correction_Factor_Int32 table vbat =
        LTC3335_Get_Software_Correction_Factor table vbat ∧
      -(2 ^ 31) ≤
        (table.getD ((vbat - 1800) / 100 + 1) 0 - table.getD ((vbat - 1800) / 100) 0) *
            ((vbat : Int) - (1800 + (((vbat - 1800) / 100 : Nat) : Int) * 100)) + 50 ∧
      (table.getD ((vbat - 1800) / 100 + 1) 0 - table.getD ((vbat - 1800) / 100) 0) *
          ((vbat : Int) - (1800 + (((vbat - 1800) / 100 : Nat) : Int) * 100)) + 50 < 2 ^ 31 := by
  have hrem : (vbat : Int) - (1800 + (((vbat - 1800) / 100 : Nat) : Int) * 100) =
      (((vbat - 1800) % 100 : Nat) : Int) := by omega
  have hcore := int32_interp_core (table.getD ((vbat - 1800) / 100) 0)
    (table.getD ((vbat - 1800) / 100 + 1) 0) (((vbat - 1800) % 100 : Nat) : Int)
    (getD_int16_bounds table hb ((vbat - 1800) / 100)).1
    (getD_int16_bounds table hb ((vbat - 1800) / 100)).2
    (getD_int16_bounds table hb ((vbat - 1800) / 100 + 1)).1
    (getD_int16_bounds table hb ((vbat - 1800) / 100 + 1)).2
    (Int.natCast_nonneg _) (by omega)
  have hform : LTC3335_Get_Software_Correction_Factor_Int32 table vbat =
      table.getD ((vbat - 1800) / 100) 0 +
        Int.tdiv
          ((table.getD ((vbat - 1800) / 100 + 1) 0 - table.getD ((vbat - 1800) / 100) 0) *
            (((vbat - 1800) % 100 : Nat) : Int) + 50)
          100 := by
    rw [correction_factor_int32_interp table vbat h1 h2]
    exact hcore.1
  have e31 : -((2 : Int) ^ 31) = -2147483648 := by norm_num
  have e31' : (2 : Int) ^ 31 = 2147483648 := by norm_num
  refine ⟨?_, ?_, ?_, ?_⟩
  · rw [hrem]
    exact hform
  · rw [hform, correction_factor_interp table vbat h1 h2]
  · rw [hrem, e31]
    exact hcore.2.1
  · rw [hrem, e31']
    exact hcore.2.2

/-- Witness for C1 at 4550 mV with the 10 mA / 3.3 V table. -/
theorem correction_factor_interpolation_formula_witness :
    LTC3335_Get_Software_Correction_Factor_Int32
        LTC3335_Software_Correction_Table_10MA_3_3V 4550 =
      LTC3335_Get_Software_Correction_Factor LTC3335_Software_Correction_Table_10MA_3_3V 4550 :=
  (correction_factor_interpolation_formula LTC3335_Software_Correction_Table_10MA_3_3V 4550
    (by decide) (by decide) (by decide)).2.1

/-- The interpolation normal form extended to the closed range
[1800, 5500]: at both endpoints the remainder is 0 and the formula
collapses to the clamped table entry. -/
lemma correction_factor_eq_interp_form (table : List Int) (vbat : Nat)
    (h1 : 1800 ≤ vbat) (h2 : vbat ≤ 5500) :
    LTC3335_Get_Software_Correction_Factor table vbat =
      table.getD ((vbat - 1800) / 100) 0 +
        Int.tdiv
          ((table.getD ((vbat - 1800) / 100 + 1) 0 - table.getD ((vbat - 1800) / 100) 0) *
            (((vbat - 1800) % 100 : Nat) : Int) + 50)
          100 := by
  have h50 : Int.tdiv 50 100 = 0 := by decide
  rcases eq_or_lt_of_le h1 with he | hgt
  · rw [← he, correction_factor_low table 1800 (by omega)]
    norm_num [h50]
  · rcases eq_or_lt_of_le h2 with he2 | hlt
    · rw [he2, correction_factor_high table 5500 (by omega)]
      norm_num [h50]
    · exact correction_factor_interp table vbat hgt hlt

/-- One step of monotonicity: for a nondecreasing table the factor at
`v + 1` is at least the factor at `v`. -/
lemma correction_factor_le_succ (table : List Int)
    (hmono : ∀ k < 37, table.getD k 0 ≤ table.getD (k + 1) 0) (v : Nat) :
    LTC3335_Get_Software_Correction_Factor table v ≤
      LTC3335_Get_Software_Correction_Factor table (v + 1) := by
  rcases lt_or_ge v 1800 with hlow | h1800
  · rw [correction_factor_low table v (by omega), correction_factor_low table (v + 1) (by omega)]
  · rcases le_or_lt 5500 v with hhigh | hin
    · rw [correction_factor_high table v hhigh, correction_factor_high table (v + 1) (by omega)]
    · rw [correction_factor_eq_interp_form table v (by omega) (by omega),
        correction_factor_eq_interp_form table (v + 1) (by omega) (by omega)]
      have hq36 : (v - 1800) / 100 < 37 := by omega
      have hd : (0 : Int) ≤ table.getD ((v - 1800) / 100 + 1) 0 -
          table.getD ((v - 1800) / 100) 0 := by
        have := hmono ((v - 1800) / 100) hq36
        omega
      rcases Nat.lt_or_ge ((v - 1800) % 100) 99 with hr | hr
      · have e1 : (v + 1 - 1800) / 100 = (v - 1800) / 100 := by omega
        have e2 : (v + 1 - 1800) % 100 = (v - 1800) % 100 + 1 := by omega
        rw [e1, e2]
        have hcast : (((v - 1800) % 100 : Nat) : Int) ≤ (((v - 1800) % 100 + 1 : Nat) : Int) := by
          exact_mod_cast Nat.le_succ _
        have hmul : (table.getD ((v - 1800) / 100 + 1) 0 - table.getD ((v - 1800) / 100) 0) *
              (((v - 1800) % 100 : Nat) : Int) ≤
            (table.getD ((v - 1800) / 100 + 1) 0 - table.getD ((v - 1800) / 100) 0) *
              (((v - 1800) % 100 + 1 : Nat) : Int) :=
          mul_le_mul_of_nonneg_left hcast hd
        have hnum1 : (0 : Int) ≤
            (table.getD ((v - 1800) / 100 + 1) 0 - table.getD ((v - 1800) / 100) 0) *
              (((v - 1800) % 100 : Nat) : Int) + 50 := by
          have := mul_nonneg hd (Int.natCast_nonneg ((v - 1800) % 100))
          omega
        have hnum2 : (0 : Int) ≤
            (table.getD ((v - 1800) / 100 + 1) 0 - table.getD ((v - 1800) / 100) 0) *
              (((v - 1800) % 100 + 1 : Nat) : Int) + 50 := by
          have := mul_nonneg hd (Int.natCast_nonneg ((v - 1800) % 100 + 1))
          omega
        rw [tdiv_hundred_of_nonneg _ hnum1, tdiv_hundred_of_nonneg _ hnum2]
        omega
      · have hr99 : (v - 1800) % 100 = 99 := by omega
        have e1 : (v + 1 - 1800) / 100 = (v - 1800) / 100 + 1 := by omega
        have e2 : (v + 1 - 1800) % 100 = 0 := by omega
        rw [e1, e2, hr99]
        have h50 : Int.tdiv 50 100 = 0 := by decide
        have hbnd := interp_bounds_nonneg
          (table.getD ((v - 1800) / 100 + 1) 0 - table.getD ((v - 1800) / 100) 0)
          (((99 : Nat) : Int)) hd (by norm_num) (by norm_num)
        simp only [Nat.cast_zero, mul_zero, zero_add, h50, add_zero]
        omega

/-- Claim C10: if the compiled-in table is nondecreasing (entry `k` at most
entry `k+1` for all `k ≤ 36`, as holds for the 10 mA / 3.3 V table), then
the correction factor is monotone nondecreasing in the battery voltage. -/
theorem correction_factor_monotone (table : List Int)
    (hmono : ∀ k < 37, table.getD k 0 ≤ table.getD (k + 1) 0)
    (v1 v2 : Nat) (h : v1 ≤ v2) :
    LTC3335_Get_Software_Correction_Factor table v1 ≤
      LTC3335_Get_Software_Correction_Factor table v2 :=
  monotone_nat_of_le_succ (correction_factor_le_succ table hmono) h

/-- Witness for C10: the 10 mA / 3.3 V table is nondecreasing, and the
factor at 2475 mV is at most the factor at 5050 mV. -/
theorem correction_factor_monotone_witness :
    LTC3335_Get_Software_Correction_Factor LTC3335_Software_Correction_Table_10MA_3_3V 2475 ≤
      LTC3335_Get_Software_Correction_Factor LTC3335_Software_Correction_Table_10MA_3_3V 5050 :=
  correction_factor_monotone LTC3335_Software_Correction_Table_10MA_3_3V
    (by decide) 2475 5050 (by norm_num)
